import Mathlib

/-!
# SmokeAPI: mode selection, lifecycle and the IClientApps dispatch handlers

A shallow embedding of `src/smoke_api/smoke_api.cpp` and
`src/koalageddon/steamclient/client_apps.cpp`.

The C++ code is effectful: it calls into koalabox, the OS loader and the vendor
library, assigns process globals, and throws.  It is embedded in an explicit
state-and-exception monad `Exec` that also records, in program order, every
call the code makes to a collaborator (`Event`).  Collaborators whose code is
not part of the two translated files are fields of `Env`: each one is given by
the outcome of the call (a value, or the text of the exception it throws).
-/

namespace SmokeAPI

/-- A module handle (`HMODULE`); `0` is `nullptr`. -/
abbrev HMODULE := Nat

/-- A raw address; `0` is `nullptr`. -/
abbrev Ptr := Nat

/-- Steam application / DLC identifier (`AppId_t`). -/
abbrev AppId_t := Nat

/-- Host memory that vendor code may read and write: address-value cells. -/
abbrev Memory := List (Nat × Int)

/-- One value of a native argument list. -/
inductive Arg where
  | ptr (p : Ptr)
  | app (a : AppId_t)
  | int (i : Int)
  deriving DecidableEq, Repr

/-- The observable calls of the translated code, in the order they are made.
`enter fn` marks control entering the function `fn` of the translated file;
`module_loaded` is the OS loader mapping a module; `original_call` is a call of
a vendor original through its call-through handle. -/
inductive Event where
  | DisableThreadLibraryCalls (h : HMODULE)
  | config_init
  | get_log_path
  | init_file_logger (path : String)
  | log_info (msg : String)
  | log_debug (msg : String)
  | log_error (msg : String)
  | get_cache_path
  | init_cache (path : String)
  | get_module_file_name_or_throw
  | is_hook_mode (h : HMODULE) (dll : String)
  | hook_init (flag : Bool)
  | get_module_handle_or_throw
  | get_module_manifest (h : HMODULE)
  | koalageddon_init
  | enter (fn : String)
  | init_listener (dll : String)
  | shutdown_listener
  | detour (module : HMODULE) (fn : String)
  | get_self_path
  | load_original_library (self_path : String) (dll : String)
  | free_library (h : HMODULE)
  | panic (msg : String)
  | module_loaded (name : String) (h : HMODULE)
  | original_call (fn : String) (args : List Arg)
  | IsAppDlcInstalled (ecx edx : Ptr) (app_id dlc_id : AppId_t)
  deriving DecidableEq, Repr

/-- Process-wide mutable state: `globals::*`, `config::instance`, the
module-load monitor's registration, the modules mapped into the process, the
hook table, the interface address registry and host memory. -/
structure World where
  smokeapi_handle : HMODULE
  steamapi_module : HMODULE
  steamclient_module : HMODULE
  logging : Bool
  listener : Option String
  loaded : List (String × HMODULE)
  hooks : List (HMODULE × String)
  interface_name_to_address_map : List (String × Ptr)
  memory : Memory
  deriving DecidableEq, Repr

/-- The state of a process right after the component is mapped: every global is
zero-initialised, nothing is hooked or registered. -/
def World.fresh (loaded : List (String × HMODULE)) : World :=
  { smokeapi_handle := 0, steamapi_module := 0, steamclient_module := 0,
    logging := false, listener := none, loaded := loaded, hooks := [],
    interface_name_to_address_map := [], memory := [] }

/-- What running a piece of code produces: a value or the thrown exception's
text (`ex.what()`), the state it leaves, and the calls it made. -/
structure Outcome (α : Type) where
  result : Except String α
  world : World
  events : List Event

/-- Code running against the process state. -/
def Exec (α : Type) : Type := World → Outcome α

/-- Return a value: no effect. -/
def Exec.ret {α : Type} (a : α) : Exec α := fun w => ⟨.ok a, w, []⟩

/-- Sequencing: a thrown exception skips the rest; state changes and calls made
before the throw persist. -/
def Exec.seq {α β : Type} (m : Exec α) (f : α → Exec β) : Exec β := fun w =>
  match m w with
  | ⟨.ok a, w1, es⟩ => ⟨(f a w1).result, (f a w1).world, es ++ (f a w1).events⟩
  | ⟨.error x, w1, es⟩ => ⟨.error x, w1, es⟩

instance : Monad Exec where
  pure := Exec.ret
  bind := Exec.seq

/-- Record a call that cannot throw. -/
def emit (e : Event) : Exec Unit := fun w => ⟨.ok (), w, [e]⟩

/-- Record a call to a collaborator and produce its outcome. -/
def call {α : Type} (e : Event) (r : Except String α) : Exec α := fun w => ⟨r, w, [e]⟩

/-- Assign to process state. -/
def update (f : World → World) : Exec Unit := fun w => ⟨.ok (), f w, []⟩

/-- Read process state. -/
def world : Exec World := fun w => ⟨.ok w, w, []⟩

/-- The C++ construct `try { m } catch (const Exception& ex) { h ex.what() }`. -/
def try_catch {α : Type} (m : Exec α) (h : String → Exec α) : Exec α := fun w =>
  match m w with
  | ⟨.ok a, w1, es⟩ => ⟨.ok a, w1, es⟩
  | ⟨.error x, w1, es⟩ => ⟨(h x w1).result, (h x w1).world, es ++ (h x w1).events⟩

/-- The shared routines of `steam_apps` receive the handler's lambdas as
callbacks.  A routine is the tree of its interaction with them: it either
answers (`ret`) or invokes a callback, named by `q`, and continues with the value
the callback returned. -/
inductive Routine (Q ρ α : Type) where
  | ret (a : α)
  | ask (q : Q) (k : ρ → Routine Q ρ α)

/-- Run a routine, invoking `cb q` at each `ask q` node. -/
def Routine.exec {Q ρ α : Type} (cb : Q → Exec ρ) : Routine Q ρ α → Exec α
  | .ret a => Exec.ret a
  | .ask q k => Exec.seq (cb q) (fun r => Routine.exec cb (k r))

/-- Everything the translated code uses but does not define: build constants,
the koalabox helpers, the OS loader, the shared `steam_apps` routines, the
vendor's original functions and the sibling handler.  A helper that can throw
is given by the outcome of the call, the value it returns or the text of the
`Exception` it throws.  `not_equals` and `contains` are the string operators of
`is_valve_steam`; `filename` is `Path(...).filename().string()`.  The handlers
only run once their hook is installed, so `GET_ORIGINAL_HOOKED_FUNCTION`
resolves, and the originals are given resolved (`..._o`); vendor code acts on
host memory and does not throw. -/
structure Env where
  COMPILE_KOALAGEDDON : Bool
  STEAMAPI_DLL : String
  STEAMCLIENT_DLL : String
  PROJECT_NAME : String
  PROJECT_VERSION : String
  TIMESTAMP : String
  BITNESS : Nat
  config_init : Except String Bool
  get_log_path : Except String String
  init_file_logger : String → Except String Unit
  get_cache_path : Except String String
  init_cache : String → Except String Unit
  get_module_file_name_or_throw : Except String String
  filename : String → String
  is_hook_mode : HMODULE → String → Except String Bool
  hook_init : Bool → Except String Unit
  get_module_handle_or_throw : Except String HMODULE
  get_module_manifest : HMODULE → Except String (Option String)
  not_equals : String → String → Bool
  contains : String → String → Bool
  koalageddon_init : Except String Unit
  init_listener : String → Except String Unit
  get_self_path : Except String String
  load_original_library : String → String → Except String HMODULE
  free_library : HMODULE → Except String Unit
  steam_apps_GetDLCCount : String → AppId_t → Routine Unit Int Int
  steam_apps_GetDLCDataByIndex :
    String → AppId_t → Int → Ptr → Ptr → Ptr → Int → Routine (Option AppId_t) Bool Bool
  IClientApps_GetDLCCount_o : Ptr → Ptr → AppId_t → Memory → Int × Memory
  IClientApps_BGetDLCDataByIndex_o :
    Ptr → Ptr → AppId_t → Int → Ptr → Ptr → Ptr → Int → Memory → Bool × Memory
  IClientAppManager_IsAppDlcInstalled : Ptr → Ptr → AppId_t → AppId_t → Memory → Bool × Memory

/-! ## `src/smoke_api/smoke_api.cpp` -/

/-- The macro `LOG_INFO`; logging does not throw. -/
def LOG_INFO (msg : String) : Exec Unit := emit (.log_info msg)

/-- The macro `LOG_DEBUG`. -/
def LOG_DEBUG (msg : String) : Exec Unit := emit (.log_debug msg)

/-- The macro `LOG_ERROR`. -/
def LOG_ERROR (msg : String) : Exec Unit := emit (.log_error msg)

/-- The call `koalabox::util::panic(msg)`: koalabox is not in src, the call is
recorded (§7 Fatal-Init: abort the host process with a diagnostic). -/
def panic (msg : String) : Exec Unit := emit (.panic msg)

/-- Modelled from the spec: the name comparison of `koalabox::dll_monitor`, which
is not in src; §4.1 matches module names case-insensitively. -/
def same_module_name (a b : String) : Bool :=
  a.toList.map Char.toLower == b.toList.map Char.toLower

/-- Modelled from the spec: `koalabox::dll_monitor::shutdown_listener` is not in
src; it deregisters the listener (§4.1). -/
def shutdown_listener : Exec Unit := do
  emit .shutdown_listener
  update fun w => { w with listener := none }

/-- Modelled from the spec: `koalabox::dll_monitor::init_listener` is not in src.
§4.1 `register(module_name, callback)`: if the module is already mapped the
callback fires synchronously before the call returns, otherwise the monitor
begins observing the module-load event stream. -/
def init_listener (env : Env) (module_name : String) (callback : HMODULE → Exec Unit) :
    Exec Unit := do
  call (.init_listener module_name) (env.init_listener module_name)
  let w ← world
  match w.loaded.find? (fun m => same_module_name m.1 module_name) with
  | some m => callback m.2
  | none => update fun w => { w with listener := some module_name }

/-- Modelled from the spec: the delivery of one module-load event by
`koalabox::dll_monitor`, which is not in src.  §4.1: on the first event whose
module name matches (case-insensitive) the callback is invoked once with the
resolved handle, then the listener is deregistered. -/
def module_loaded (callback : HMODULE → Exec Unit) (name : String) (h : HMODULE) :
    Exec Unit := do
  emit (.module_loaded name h)
  update fun w => { w with loaded := w.loaded ++ [(name, h)] }
  let w ← world
  match w.listener with
  | some target =>
    if same_module_name name target then do
      callback h
      update fun w => { w with listener := none }
    else Exec.ret ()
  | none => Exec.ret ()

/-- Modelled from the spec: the macro `DETOUR_STEAMCLIENT(FUNC)` is not in src;
it asks the Hook Manager (§4.3) to redirect the export `FUNC` of the module held
in `globals::steamclient_module`. -/
def DETOUR_STEAMCLIENT (fn : String) : Exec Unit := do
  let w ← world
  emit (.detour w.steamclient_module fn)
  update fun w => { w with hooks := w.hooks ++ [(w.steamclient_module, fn)] }

/-- The lambda handed to the listener in `init_hook_mode`. -/
def init_hook_mode_callback (library : HMODULE) : Exec Unit := do
  update fun w => { w with steamclient_module := library }
  DETOUR_STEAMCLIENT "CreateInterface"
  shutdown_listener

/-- The function `init_proxy_mode`. -/
def init_proxy_mode (env : Env) : Exec Unit := do
  emit (.enter "init_proxy_mode")
  LOG_INFO "🔀 Detected proxy mode"
  let self_path ← call .get_self_path env.get_self_path
  let library ← call (.load_original_library self_path env.STEAMAPI_DLL)
    (env.load_original_library self_path env.STEAMAPI_DLL)
  update fun w => { w with steamapi_module := library }

/-- The function `init_hook_mode`. -/
def init_hook_mode (env : Env) : Exec Unit := do
  emit (.enter "init_hook_mode")
  LOG_INFO "🪝 Detected hook mode"
  init_listener env env.STEAMCLIENT_DLL init_hook_mode_callback

/-- The function `is_valve_steam`. -/
def is_valve_steam (env : Env) (exe_name : String) : Exec Bool := do
  if env.not_equals exe_name "steam.exe" then
    Exec.ret false
  else do
    let steam_handle ← call .get_module_handle_or_throw env.get_module_handle_or_throw
    let manifest ← call (.get_module_manifest steam_handle) (env.get_module_manifest steam_handle)
    match manifest with
    | none => Exec.ret false
    | some m => Exec.ret (env.contains m "valvesoftware.steam.steam")

/-- The final log line of a successful attach. -/
def initialization_complete : String := "🚀 Initialization complete"

/-- The `try` block of `smoke_api::init`. -/
def init_body (env : Env) (module_handle : HMODULE) : Exec Unit := do
  emit (.DisableThreadLibraryCalls module_handle)
  update fun w => { w with smokeapi_handle := module_handle }
  let logging ← call .config_init env.config_init
  update fun w => { w with logging := logging }
  let w ← world
  if w.logging then do
    let log_path ← call .get_log_path env.get_log_path
    call (.init_file_logger log_path) (env.init_file_logger log_path)
  else Exec.ret ()
  LOG_INFO ("🐨 " ++ env.PROJECT_NAME ++ " v" ++ env.PROJECT_VERSION ++ " | Compiled at '"
    ++ env.TIMESTAMP ++ "'")
  let cache_path ← call .get_cache_path env.get_cache_path
  call (.init_cache cache_path) (env.init_cache cache_path)
  let exe_path ← call .get_module_file_name_or_throw env.get_module_file_name_or_throw
  let exe_name := env.filename exe_path
  LOG_DEBUG ("Process name: '" ++ exe_name ++ "' [" ++ toString env.BITNESS ++ "-bit]")
  let w ← world
  let hook_mode ← call (.is_hook_mode w.smokeapi_handle env.STEAMAPI_DLL)
    (env.is_hook_mode w.smokeapi_handle env.STEAMAPI_DLL)
  if hook_mode then do
    call (.hook_init true) (env.hook_init true)
    let valve ← is_valve_steam env exe_name
    if valve then
      if env.COMPILE_KOALAGEDDON then do
        LOG_INFO "🐨💥 Detected Koalageddon mode"
        call .koalageddon_init env.koalageddon_init
      else Exec.ret ()
    else init_hook_mode env
  else init_proxy_mode env
  LOG_INFO initialization_complete

/-- The function `smoke_api::init`. -/
def smoke_api.init (env : Env) (module_handle : HMODULE) : Exec Unit :=
  try_catch (init_body env module_handle)
    (fun what => panic ("Initialization error: " ++ what))

/-- The function `smoke_api::shutdown`. -/
def smoke_api.shutdown (env : Env) : Exec Unit :=
  try_catch
    (do
      let w ← world
      if w.steamapi_module ≠ 0 then
        call (.free_library w.steamapi_module) (env.free_library w.steamapi_module)
      else Exec.ret ()
      LOG_INFO "💀 Shutdown complete")
    (fun what => LOG_ERROR ("Shutdown error: " ++ what))

/-! ## `src/koalageddon/steamclient/client_apps.cpp` -/

/-- The expression `interface_name_to_address_map[key]`.  The map's declaration
is not in src; it is a standard associative container of interface name to
instance pointer, whose `operator[]` returns the mapped value and, when the key
is absent, first inserts a value-initialised (null) entry for it. -/
def map_index (key : String) : Exec Ptr := do
  let w ← world
  match w.interface_name_to_address_map.lookup key with
  | some address => Exec.ret address
  | none => do
    update fun w =>
      { w with interface_name_to_address_map := w.interface_name_to_address_map ++ [(key, 0)] }
    Exec.ret 0

/-- The first lambda of `IClientApps_GetDLCCount`: the forwarding path.  The
macro `GET_ORIGINAL_HOOKED_FUNCTION` resolves `IClientApps_GetDLCCount_o`, and
`ARGS(...)` passes the hidden leading parameters `ECX, EDX` that `PARAMS(...)`
declared. -/
def IClientApps_GetDLCCount_forward (env : Env) (ECX EDX : Ptr) (appId : AppId_t) : Exec Int := do
  emit (.original_call "IClientApps_GetDLCCount" [.ptr ECX, .ptr EDX, .app appId])
  let w ← world
  let r := env.IClientApps_GetDLCCount_o ECX EDX appId w.memory
  update fun w => { w with memory := r.2 }
  Exec.ret r.1

/-- The handler `IClientApps_GetDLCCount`. -/
def IClientApps_GetDLCCount (env : Env) (ECX EDX : Ptr) (appId : AppId_t) : Exec Int :=
  Routine.exec (fun _ => IClientApps_GetDLCCount_forward env ECX EDX appId)
    (env.steam_apps_GetDLCCount "IClientApps_GetDLCCount" appId)

/-- The first lambda of `IClientApps_BGetDLCDataByIndex`: the forwarding path. -/
def IClientApps_BGetDLCDataByIndex_forward (env : Env) (ECX EDX : Ptr) (appID : AppId_t)
    (iDLC : Int) (pDlcID pbAvailable pchName : Ptr) (cchNameBufferSize : Int) : Exec Bool := do
  emit (.original_call "IClientApps_BGetDLCDataByIndex"
    [.ptr ECX, .ptr EDX, .app appID, .int iDLC, .ptr pDlcID, .ptr pbAvailable, .ptr pchName,
      .int cchNameBufferSize])
  let w ← world
  let r := env.IClientApps_BGetDLCDataByIndex_o ECX EDX appID iDLC pDlcID pbAvailable pchName
    cchNameBufferSize w.memory
  update fun w => { w with memory := r.2 }
  Exec.ret r.1

/-- The second lambda of `IClientApps_BGetDLCDataByIndex`: the secondary lookup
against the sibling interface `IClientAppManager`. -/
def IClientApps_BGetDLCDataByIndex_lookup (env : Env) (EDX : Ptr) (appID : AppId_t)
    (dlc_id : AppId_t) : Exec Bool := do
  let app_manager_interface ← map_index "IClientAppManager"
  if app_manager_interface ≠ 0 then do
    emit (.IsAppDlcInstalled app_manager_interface EDX appID dlc_id)
    let w ← world
    let r := env.IClientAppManager_IsAppDlcInstalled app_manager_interface EDX appID dlc_id
      w.memory
    update fun w => { w with memory := r.2 }
    Exec.ret true
  else
    Exec.ret false

/-- The handler `IClientApps_BGetDLCDataByIndex`.  The shared routine asks
`none` for `original_function()` and `some dlc_id` for the secondary lookup. -/
def IClientApps_BGetDLCDataByIndex (env : Env) (ECX EDX : Ptr) (appID : AppId_t)
    (iDLC : Int) (pDlcID pbAvailable pchName : Ptr) (cchNameBufferSize : Int) : Exec Bool :=
  Routine.exec
    (fun q => match q with
      | none => IClientApps_BGetDLCDataByIndex_forward env ECX EDX appID iDLC pDlcID pbAvailable
          pchName cchNameBufferSize
      | some dlc_id => IClientApps_BGetDLCDataByIndex_lookup env EDX appID dlc_id)
    (env.steam_apps_GetDLCDataByIndex "IClientApps_BGetDLCDataByIndex" appID iDLC pDlcID
      pbAvailable pchName cchNameBufferSize)

/-! ## Concrete collaborators used to evaluate the code -/

/-- A third-party game process: hook mode, every helper succeeds, the vendor
reports two DLCs and marks nothing available, the sibling reports nothing
installed, and the count routine forwards. -/
def gameEnv : Env :=
  { COMPILE_KOALAGEDDON := true
    STEAMAPI_DLL := "steam_api"
    STEAMCLIENT_DLL := "steamclient.dll"
    PROJECT_NAME := "SmokeAPI"
    PROJECT_VERSION := "2.0.0"
    TIMESTAMP := "now"
    BITNESS := 32
    config_init := .ok true
    get_log_path := .ok "SmokeAPI.log.log"
    init_file_logger := fun _ => .ok ()
    get_cache_path := .ok "SmokeAPI.cache.json"
    init_cache := fun _ => .ok ()
    get_module_file_name_or_throw := .ok "game.exe"
    filename := fun p => p
    is_hook_mode := fun _ _ => .ok true
    hook_init := fun _ => .ok ()
    get_module_handle_or_throw := .ok 4194304
    get_module_manifest := fun _ => .ok none
    not_equals := fun a b => a != b
    contains := fun a b => a == b
    koalageddon_init := .ok ()
    init_listener := fun _ => .ok ()
    get_self_path := .ok "dir"
    load_original_library := fun _ _ => .ok 7340032
    free_library := fun _ => .ok ()
    steam_apps_GetDLCCount := fun _ _ => .ask () (fun n => .ret n)
    steam_apps_GetDLCDataByIndex := fun _ _ _ _ _ _ _ => .ask none (fun b => .ret b)
    IClientApps_GetDLCCount_o := fun _ _ _ m => (2, m)
    IClientApps_BGetDLCDataByIndex_o := fun _ _ _ _ _ pbAvailable _ _ m =>
      (true, (pbAvailable, 0) :: m)
    IClientAppManager_IsAppDlcInstalled := fun _ _ _ _ m => (false, m) }

/-- The official launcher: named `steam.exe`, manifest carries the identity. -/
def steamEnv : Env :=
  { gameEnv with
    get_module_file_name_or_throw := .ok "steam.exe"
    get_module_manifest := fun _ => .ok (some "valvesoftware.steam.steam") }

/-- A process that loads this component next to the genuine library. -/
def proxyEnv : Env :=
  { gameEnv with is_hook_mode := fun _ _ => .ok false }

/-- A game process whose cache cannot be initialised. -/
def brokenCacheEnv : Env :=
  { gameEnv with init_cache := fun _ => .error "disk" }

/-- A process whose genuine library cannot be released at detach. -/
def stuckLibraryEnv : Env :=
  { proxyEnv with free_library := fun _ => .error "busy" }

/-- A count routine that answers from synthetic state for every app. -/
def grantedEnv : Env :=
  { gameEnv with steam_apps_GetDLCCount := fun _ _ => .ret 3 }

/-- A process in which the sibling interface `IClientAppManager` is registered. -/
def registeredWorld : World :=
  { World.fresh [] with interface_name_to_address_map := [("IClientAppManager", 99)] }

/-! ## Observations on traces and collaborators -/

/-- The three modes of §4.5. -/
inductive Mode where
  | Proxy
  | Hook
  | Koalageddon
  deriving DecidableEq, Repr

/-- The mode initialiser an event marks the start of, if any. -/
def mode_of_event : Event → Option Mode
  | .enter "init_proxy_mode" => some .Proxy
  | .enter "init_hook_mode" => some .Hook
  | .koalageddon_init => some .Koalageddon
  | _ => none

/-- The mode initialisers that ran, in order. -/
def modes_run (events : List Event) : List Mode := events.filterMap mode_of_event

/-- What `koalabox::hook::is_hook_mode` reports for the component at attach. -/
def reports_hook_mode (env : Env) (h : HMODULE) : Bool :=
  match env.is_hook_mode h env.STEAMAPI_DLL with
  | .ok b => b
  | .error _ => false

/-- The host executable is named `steam.exe` (by the code's own comparison). -/
def exe_named_steam (env : Env) : Bool :=
  match env.get_module_file_name_or_throw with
  | .ok path => !env.not_equals (env.filename path) "steam.exe"
  | .error _ => false

/-- The host executable's manifest is present and contains the vendor identity. -/
def manifest_identifies_steam (env : Env) : Bool :=
  match env.get_module_handle_or_throw with
  | .ok steam_handle =>
    match env.get_module_manifest steam_handle with
    | .ok (some m) => env.contains m "valvesoftware.steam.steam"
    | _ => false
  | .error _ => false

/-- The handle `init_proxy_mode` obtains from `load_original_library`. -/
def proxy_library (env : Env) : HMODULE :=
  match env.get_self_path with
  | .ok self_path =>
    match env.load_original_library self_path env.STEAMAPI_DLL with
    | .ok library => library
    | .error _ => 0
  | .error _ => 0

/-- The text of the exception a collaborator throws, if it throws. -/
def thrown {α : Type} : Except String α → Option String
  | .ok _ => none
  | .error x => some x

/-- The exception the call recorded by an event ends with, if any. -/
def raises (env : Env) : Event → Option String
  | .config_init => thrown env.config_init
  | .get_log_path => thrown env.get_log_path
  | .init_file_logger path => thrown (env.init_file_logger path)
  | .get_cache_path => thrown env.get_cache_path
  | .init_cache path => thrown (env.init_cache path)
  | .get_module_file_name_or_throw => thrown env.get_module_file_name_or_throw
  | .is_hook_mode h dll => thrown (env.is_hook_mode h dll)
  | .hook_init flag => thrown (env.hook_init flag)
  | .get_module_handle_or_throw => thrown env.get_module_handle_or_throw
  | .get_module_manifest h => thrown (env.get_module_manifest h)
  | .koalageddon_init => thrown env.koalageddon_init
  | .init_listener dll => thrown (env.init_listener dll)
  | .get_self_path => thrown env.get_self_path
  | .load_original_library self_path dll => thrown (env.load_original_library self_path dll)
  | .free_library h => thrown (env.free_library h)
  | .DisableThreadLibraryCalls _ => none
  | .log_info _ => none
  | .log_debug _ => none
  | .log_error _ => none
  | .enter _ => none
  | .shutdown_listener => none
  | .detour _ _ => none
  | .panic _ => none
  | .module_loaded _ _ => none
  | .original_call _ _ => none
  | .IsAppDlcInstalled _ _ _ _ => none

/-- The event is a call of `panic`. -/
def is_panic : Event → Bool
  | .panic _ => true
  | _ => false

/-- The handles passed to `free_library`, in order. -/
def freed (events : List Event) : List HMODULE :=
  events.filterMap fun e => match e with
    | .free_library h => some h
    | _ => none

/-- The hook installations requested, in order. -/
def detours (events : List Event) : List (HMODULE × String) :=
  events.filterMap fun e => match e with
    | .detour m fn => some (m, fn)
    | _ => none

/-- The argument lists the original functions were called with, in order. -/
def original_calls (events : List Event) : List (String × List Arg) :=
  events.filterMap fun e => match e with
    | .original_call fn args => some (fn, args)
    | _ => none

/-- The invocations of the sibling handler `IClientAppManager_IsAppDlcInstalled`. -/
def sibling_calls (events : List Event) : List Event :=
  events.filter fun e => match e with
    | .IsAppDlcInstalled _ _ _ _ => true
    | _ => false

/-- The shape of the trace of a `try` block.  When the block raises `x`, the
trace stops at the call that raised: that call is the last event, every earlier
call returned, and neither the completion line nor `panic` occurs.  When the
block returns, no call raised and `panic` does not occur. -/
def ends_at_raise (env : Env) : Except String Unit → List Event → Prop
  | .error x, events =>
    (∃ c, events.getLast? = some c ∧ raises env c = some x) ∧
    (∀ e ∈ events.dropLast, raises env e = none) ∧
    (∀ e ∈ events, e ≠ .log_info initialization_complete ∧ is_panic e = false)
  | .ok _, events => ∀ e ∈ events, raises env e = none ∧ is_panic e = false

/-- What a returning `try` block of `init` leaves behind: the library handle it
holds, and, for a build without Koalageddon support on a host verified as the
official launcher in hook mode, that no mode initialiser ran. -/
def attach_effects (env : Env) (h : HMODULE) (w : World) :
    Except String Unit → World → List Event → Prop
  | .error _, _, _ => True
  | .ok _, w1, events =>
    w1.steamapi_module =
      (if reports_hook_mode env h = true then w.steamapi_module else proxy_library env) ∧
    (env.COMPILE_KOALAGEDDON = false → reports_hook_mode env h = true →
      exe_named_steam env = true → manifest_identifies_steam env = true →
      modes_run events = [] ∧ detours events = [] ∧
      (∀ dll, Event.init_listener dll ∉ events) ∧
      w1.listener = w.listener ∧ w1.hooks = w.hooks ∧
      Event.hook_init true ∈ events ∧
      events.getLast? = some (.log_info initialization_complete))

/-- A statement kept folded while a function is executed symbolically. -/
@[irreducible] def Holds (p : Prop) : Prop := p

/-- The outcome of running `m` from `w` satisfies `Q`. -/
@[irreducible] def wp {α : Type} (m : Exec α) (w : World) (Q : Outcome α → Prop) : Prop :=
  Q (m w)

/-! ## Symbolic execution of `Exec` code

The rules below push `wp` through the combinators, so that a statement about a
whole function becomes one statement per execution path. -/

theorem wp_iff {α : Type} (m : Exec α) (w : World) (Q : Outcome α → Prop) :
    wp m w Q ↔ Q (m w) := by
  unfold wp
  exact Iff.rfl

theorem holds_iff (p : Prop) : Holds p ↔ p := by
  unfold Holds
  exact Iff.rfl

theorem bind_eq_seq {α β : Type} (m : Exec α) (f : α → Exec β) :
    (m >>= f) = Exec.seq m f := rfl

theorem pure_eq_ret {α : Type} (a : α) : (pure a : Exec α) = Exec.ret a := rfl

theorem wp_ret {α : Type} (a : α) (w : World) (Q : Outcome α → Prop) :
    wp (Exec.ret a) w Q ↔ Q ⟨.ok a, w, []⟩ := wp_iff _ _ _

theorem wp_pure {α : Type} (a : α) (w : World) (Q : Outcome α → Prop) :
    wp (pure a) w Q ↔ Q ⟨.ok a, w, []⟩ := wp_iff _ _ _

theorem wp_emit (e : Event) (w : World) (Q : Outcome Unit → Prop) :
    wp (emit e) w Q ↔ Q ⟨.ok (), w, [e]⟩ := wp_iff _ _ _

theorem wp_call {α : Type} (e : Event) (r : Except String α) (w : World)
    (Q : Outcome α → Prop) : wp (call e r) w Q ↔ Q ⟨r, w, [e]⟩ := wp_iff _ _ _

theorem wp_update (g : World → World) (w : World) (Q : Outcome Unit → Prop) :
    wp (update g) w Q ↔ Q ⟨.ok (), g w, []⟩ := wp_iff _ _ _

theorem wp_world (w : World) (Q : Outcome World → Prop) :
    wp world w Q ↔ Q ⟨.ok w, w, []⟩ := wp_iff _ _ _

theorem wp_ite {α : Type} (c : Prop) [Decidable c] (m1 m2 : Exec α) (w : World)
    (Q : Outcome α → Prop) :
    wp (if c then m1 else m2) w Q ↔ (c → wp m1 w Q) ∧ (¬ c → wp m2 w Q) := by
  by_cases hc : c <;> simp [hc]

theorem wp_bind_ret {α β : Type} (a : α) (f : α → Exec β) (w : World) (Q : Outcome β → Prop) :
    wp (Exec.ret a >>= f) w Q ↔ wp (f a) w Q := by
  rw [wp_iff, wp_iff]
  show Q (Exec.seq (Exec.ret a) f w) ↔ _
  simp [Exec.seq, Exec.ret]

theorem wp_bind_emit {β : Type} (e : Event) (f : Unit → Exec β) (w : World)
    (Q : Outcome β → Prop) :
    wp (emit e >>= f) w Q ↔ wp (f ()) w (fun o => Q ⟨o.result, o.world, e :: o.events⟩) := by
  rw [wp_iff, wp_iff]
  show Q (Exec.seq (emit e) f w) ↔ _
  simp [Exec.seq, emit]

theorem wp_bind_update {β : Type} (g : World → World) (f : Unit → Exec β) (w : World)
    (Q : Outcome β → Prop) : wp (update g >>= f) w Q ↔ wp (f ()) (g w) Q := by
  rw [wp_iff, wp_iff]
  show Q (Exec.seq (update g) f w) ↔ _
  simp [Exec.seq, update]

theorem wp_bind_world {β : Type} (f : World → Exec β) (w : World) (Q : Outcome β → Prop) :
    wp (world >>= f) w Q ↔ wp (f w) w Q := by
  rw [wp_iff, wp_iff]
  show Q (Exec.seq world f w) ↔ _
  simp [Exec.seq, world]

theorem wp_bind_call {α β : Type} (e : Event) (r : Except String α) (f : α → Exec β)
    (w : World) (Q : Outcome β → Prop) :
    wp (call e r >>= f) w Q ↔
      (∀ a, r = .ok a → wp (f a) w (fun o => Q ⟨o.result, o.world, e :: o.events⟩)) ∧
      (∀ x, r = .error x → Q ⟨.error x, w, [e]⟩) := by
  simp only [wp_iff]
  show Q (Exec.seq (call e r) f w) ↔ _
  cases r <;> simp [Exec.seq, call]

theorem bind_bind {α β γ : Type} (m : Exec α) (f : α → Exec β) (g : β → Exec γ) :
    ((m >>= f) >>= g) = (m >>= fun a => f a >>= g) := by
  show Exec.seq (Exec.seq m f) g = Exec.seq m (fun a => Exec.seq (f a) g)
  funext w
  simp only [Exec.seq]
  rcases m w with ⟨r, w1, es⟩
  cases r with
  | error x => rfl
  | ok a =>
    simp only
    rcases f a w1 with ⟨r2, w2, es2⟩
    cases r2 with
    | error x => rfl
    | ok b => simp [List.append_assoc]

theorem wp_bind_ite {α β : Type} (c : Prop) [Decidable c] (m1 m2 : Exec α) (f : α → Exec β)
    (w : World) (Q : Outcome β → Prop) :
    wp ((if c then m1 else m2) >>= f) w Q ↔
      (c → wp (m1 >>= f) w Q) ∧ (¬ c → wp (m2 >>= f) w Q) := by
  by_cases hc : c <;> simp [hc]

/-- The `catch` clause of `smoke_api::init` in terms of its `try` block. -/
theorem init_eq (env : Env) (h : HMODULE) (w : World) :
    smoke_api.init env h w =
      match (init_body env h w).result with
      | .ok a => ⟨.ok a, (init_body env h w).world, (init_body env h w).events⟩
      | .error x => ⟨.ok (), (init_body env h w).world,
          (init_body env h w).events ++ [.panic ("Initialization error: " ++ x)]⟩ := by
  unfold smoke_api.init try_catch panic emit
  rcases init_body env h w with ⟨r, w1, es⟩
  cases r <;> rfl

/-- Which mode initialisers a successful `try` block of `init` ran. -/
theorem init_body_modes (env : Env) (h : HMODULE) (w : World) :
    (init_body env h w).result = .ok () → env.COMPILE_KOALAGEDDON = true →
      ∃ m, modes_run (init_body env h w).events = [m] ∧
        (m = .Proxy ↔ reports_hook_mode env h = false) ∧
        (m = .Koalageddon ↔ reports_hook_mode env h = true ∧ exe_named_steam env = true ∧
          manifest_identifies_steam env = true) ∧
        (m = .Hook ↔ reports_hook_mode env h = true ∧
          ¬ (exe_named_steam env = true ∧ manifest_identifies_steam env = true)) := by
  rw [← wp_iff (init_body env h) w (fun o => o.result = .ok () → env.COMPILE_KOALAGEDDON = true →
      ∃ m, modes_run o.events = [m] ∧
        (m = .Proxy ↔ reports_hook_mode env h = false) ∧
        (m = .Koalageddon ↔ reports_hook_mode env h = true ∧ exe_named_steam env = true ∧
          manifest_identifies_steam env = true) ∧
        (m = .Hook ↔ reports_hook_mode env h = true ∧
          ¬ (exe_named_steam env = true ∧ manifest_identifies_steam env = true)))]
  unfold init_body init_proxy_mode init_hook_mode is_valve_steam init_listener
    init_hook_mode_callback DETOUR_STEAMCLIENT shutdown_listener LOG_INFO LOG_DEBUG
  repeat' first
    | simp only [bind_bind, wp_bind_ret, wp_bind_emit, wp_bind_update, wp_bind_world,
        wp_bind_call, wp_bind_ite, wp_ret, wp_pure, wp_emit, wp_call, wp_update, wp_world, wp_ite]
    | intro _
    | apply And.intro
    | split
  all_goals simp_all [modes_run, mode_of_event, reports_hook_mode, exe_named_steam,
      manifest_identifies_steam]

/-- C1: mode selection in `smoke_api::init` is a decision table.  With
Koalageddon support compiled in and no step of the attach raising, exactly one
mode initialiser runs: `init_proxy_mode` iff `is_hook_mode` reports false;
`koalageddon::init` iff it reports true, the executable is named `steam.exe` and
its manifest is present and contains `valvesoftware.steam.steam`;
`init_hook_mode` in every remaining hook-mode case. -/
theorem mode_selection_decision_table (env : Env) (h : HMODULE) (w : World)
    (hk : env.COMPILE_KOALAGEDDON = true)
    (hok : (init_body env h w).result = .ok ()) :
    ∃ m, modes_run (smoke_api.init env h w).events = [m] ∧
      (m = .Proxy ↔ reports_hook_mode env h = false) ∧
      (m = .Koalageddon ↔ reports_hook_mode env h = true ∧ exe_named_steam env = true ∧
        manifest_identifies_steam env = true) ∧
      (m = .Hook ↔ reports_hook_mode env h = true ∧
        ¬ (exe_named_steam env = true ∧ manifest_identifies_steam env = true)) := by
  have hb := init_body_modes env h w hok hk
  rw [init_eq, hok]
  exact hb

/-- C1 at the official launcher: the only initialiser that runs is `koalageddon::init`. -/
theorem mode_selection_decision_table_witness :
    steamEnv.COMPILE_KOALAGEDDON = true ∧
    (init_body steamEnv 1 (World.fresh [])).result = .ok () ∧
    modes_run (smoke_api.init steamEnv 1 (World.fresh [])).events = [.Koalageddon] ∧
    ∃ m, modes_run (smoke_api.init steamEnv 1 (World.fresh [])).events = [m] ∧
      (m = .Proxy ↔ reports_hook_mode steamEnv 1 = false) ∧
      (m = .Koalageddon ↔ reports_hook_mode steamEnv 1 = true ∧ exe_named_steam steamEnv = true ∧
        manifest_identifies_steam steamEnv = true) ∧
      (m = .Hook ↔ reports_hook_mode steamEnv 1 = true ∧
        ¬ (exe_named_steam steamEnv = true ∧ manifest_identifies_steam steamEnv = true)) :=
  ⟨rfl, rfl, by decide, mode_selection_decision_table steamEnv 1 (World.fresh []) rfl rfl⟩

/-- The build banner is never the completion line. -/
theorem banner_ne_complete (a b c : String) :
    "🐨 " ++ a ++ " v" ++ b ++ " | Compiled at '" ++ c ++ "'" ≠ initialization_complete := by
  intro hEq
  have hd := congrArg (fun s => s.data.head?) hEq
  have h1 : "🐨 ".data = ['🐨', ' '] := rfl
  have h2 : initialization_complete.data.head? = some '🚀' := rfl
  simp only [String.data_append, List.append_assoc, h1, h2, List.cons_append,
    List.head?_cons] at hd
  revert hd
  decide

/-- None of the mode announcements is the completion line. -/
theorem announcements_ne_complete :
    "🔀 Detected proxy mode" ≠ initialization_complete ∧
    "🪝 Detected hook mode" ≠ initialization_complete ∧
    "🐨💥 Detected Koalageddon mode" ≠ initialization_complete := by
  decide

set_option maxHeartbeats 1600000 in
/-- The trace of the `try` block of `init` has the shape `ends_at_raise`. -/
theorem init_body_trace (env : Env) (h : HMODULE) (w : World) :
    ends_at_raise env (init_body env h w).result (init_body env h w).events := by
  rw [← holds_iff (ends_at_raise _ _ _),
    ← wp_iff (init_body env h) w (fun o => Holds (ends_at_raise env o.result o.events))]
  unfold init_body init_proxy_mode init_hook_mode is_valve_steam init_listener
    init_hook_mode_callback DETOUR_STEAMCLIENT shutdown_listener LOG_INFO LOG_DEBUG
  repeat' first
    | simp only [bind_bind, wp_bind_ret, wp_bind_emit, wp_bind_update, wp_bind_world,
        wp_bind_call, wp_bind_ite, wp_ret, wp_pure, wp_emit, wp_call, wp_update, wp_world, wp_ite]
    | intro _
    | apply And.intro
    | split
  all_goals rw [holds_iff]
  all_goals simp only [ends_at_raise, raises, thrown, is_panic, banner_ne_complete,
      announcements_ne_complete.1, announcements_ne_complete.2.1, announcements_ne_complete.2.2,
      List.mem_cons, List.mem_singleton, forall_eq_or_imp, forall_eq, List.getLast?_cons_cons,
      List.getLast?_singleton, List.dropLast_cons₂, List.dropLast_single, List.not_mem_nil,
      Option.some.injEq, exists_eq_left', ne_eq, Event.log_info.injEq, reduceCtorEq,
      not_false_eq_true, and_self, and_true, true_and, implies_true, false_implies, *]

/-- In a trace `A ++ c1 :: B` whose events other than `c1` did not raise, a
raising event can only be `c1`. -/
theorem raiser_unique (env : Env) (x : String) (c c1 : Event) :
    ∀ (pre post A B : List Event), pre ++ c :: post = A ++ c1 :: B →
      (∀ e ∈ A, raises env e = none) → (∀ e ∈ B, raises env e = none) →
      raises env c = some x → c = c1 ∧ post = B := by
  intro pre
  induction pre with
  | nil =>
    intro post A B hEq hA hB hc
    cases A with
    | nil =>
      simp only [List.nil_append, List.cons.injEq] at hEq
      exact hEq
    | cons a A1 =>
      simp only [List.nil_append, List.cons_append, List.cons.injEq] at hEq
      have hn := hA a (List.mem_cons_self a A1)
      rw [← hEq.1, hc] at hn
      cases hn
  | cons p pre1 ih =>
    intro post A B hEq hA hB hc
    cases A with
    | nil =>
      simp only [List.nil_append, List.cons_append, List.cons.injEq] at hEq
      have hmem : c ∈ B := by
        rw [← hEq.2]
        exact List.mem_append_right _ (List.mem_cons_self c post)
      have hn := hB c hmem
      rw [hc] at hn
      cases hn
    | cons a A1 =>
      simp only [List.cons_append, List.cons.injEq] at hEq
      exact ih post A1 B hEq.2 (fun e he => hA e (List.mem_cons_of_mem a he)) hB hc

/-- C6: attach failure is fatal and never half-initialised.  Whichever call of
`smoke_api::init` raises (`c`, with the exception text `what`), nothing runs
after it except `panic`, called once with `Initialization error: ` followed by
the text; `Initialization complete` is not logged; and `init` itself returns
normally, so the exception does not propagate. -/
theorem attach_failure_is_fatal (env : Env) (h : HMODULE) (w : World)
    (pre post : List Event) (c : Event) (what : String)
    (hsplit : (smoke_api.init env h w).events = pre ++ c :: post)
    (hraise : raises env c = some what) :
    post = [.panic ("Initialization error: " ++ what)] ∧
    (∀ e ∈ pre, raises env e = none ∧ is_panic e = false) ∧
    ((smoke_api.init env h w).events.filter is_panic).length = 1 ∧
    .log_info initialization_complete ∉ (smoke_api.init env h w).events ∧
    (smoke_api.init env h w).result = .ok () := by
  have ht := init_body_trace env h w
  rw [init_eq] at hsplit ⊢
  rcases hres : (init_body env h w).result with x | u
  · -- the `try` block raised `x`
    rw [hres] at ht hsplit
    simp only [ends_at_raise] at ht
    obtain ⟨⟨c1, hlast, hc1⟩, hquiet, hplain⟩ := ht
    simp only at hsplit ⊢
    have hbody : (init_body env h w).events = (init_body env h w).events.dropLast ++ [c1] := by
      have hd := List.dropLast_append_getLast? c1 hlast
      exact hd.symm
    rw [hbody] at hsplit
    simp only [List.append_assoc, List.singleton_append] at hsplit
    have huniq := raiser_unique env what c c1 pre post _
      [.panic ("Initialization error: " ++ x)] hsplit.symm hquiet
      (by
        intro e he
        simp only [List.mem_singleton] at he
        rw [he]
        rfl) hraise
    obtain ⟨hcc, hpost⟩ := huniq
    have hx : x = what := by
      rw [hcc, hc1] at hraise
      exact Option.some.inj hraise
    have hpre : pre = (init_body env h w).events.dropLast := by
      rw [hcc, hpost] at hsplit
      exact (List.append_cancel_right hsplit).symm
    refine ⟨?_, ?_, ?_, ?_, ?_⟩
    · rw [hpost, hx]
    · intro e he
      rw [hpre] at he
      exact ⟨hquiet e he, (hplain e (List.mem_of_mem_dropLast he)).2⟩
    · have hnone : (init_body env h w).events.filter is_panic = [] := by
        rw [List.filter_eq_nil_iff]
        intro e he
        rw [(hplain e he).2]
        simp
      rw [List.filter_append, hnone]
      rfl
    · intro hmem
      rw [List.mem_append] at hmem
      rcases hmem with hmem | hmem
      · exact (hplain _ hmem).1 rfl
      · simp at hmem
    · trivial
  · -- the `try` block returned: no call raised
    rw [hres] at ht hsplit
    simp only [ends_at_raise] at ht
    simp only at hsplit
    have hmem : c ∈ (init_body env h w).events := by
      rw [hsplit]
      exact List.mem_append_right _ (List.mem_cons_self c post)
    have hn := (ht c hmem).1
    rw [hraise] at hn
    cases hn

/-- C6 at a process whose cache cannot be initialised. -/
theorem attach_failure_is_fatal_witness :
    (smoke_api.init brokenCacheEnv 1 (World.fresh [])).events =
      [.DisableThreadLibraryCalls 1, .config_init, .get_log_path,
        .init_file_logger "SmokeAPI.log.log",
        .log_info "🐨 SmokeAPI v2.0.0 | Compiled at 'now'", .get_cache_path] ++
      .init_cache "SmokeAPI.cache.json" :: [.panic "Initialization error: disk"] ∧
    raises brokenCacheEnv (.init_cache "SmokeAPI.cache.json") = some "disk" ∧
    ([Event.panic "Initialization error: disk"] = [.panic ("Initialization error: " ++ "disk")] ∧
    (∀ e ∈ [Event.DisableThreadLibraryCalls 1, .config_init, .get_log_path,
        .init_file_logger "SmokeAPI.log.log",
        .log_info "🐨 SmokeAPI v2.0.0 | Compiled at 'now'", .get_cache_path],
      raises brokenCacheEnv e = none ∧ is_panic e = false) ∧
    ((smoke_api.init brokenCacheEnv 1 (World.fresh [])).events.filter is_panic).length = 1 ∧
    .log_info initialization_complete ∉ (smoke_api.init brokenCacheEnv 1 (World.fresh [])).events ∧
    (smoke_api.init brokenCacheEnv 1 (World.fresh [])).result = .ok ()) :=
  ⟨by decide, rfl, attach_failure_is_fatal brokenCacheEnv 1 (World.fresh []) _ _
    (.init_cache "SmokeAPI.cache.json") "disk" (by decide) rfl⟩

/-- The original calls made while a routine runs are those its callbacks make. -/
theorem exec_original_calls {Q ρ α : Type} (cb : Q → Exec ρ)
    (P : String × List Arg → Prop)
    (hcb : ∀ q w, ∀ c ∈ original_calls (cb q w).events, P c) :
    ∀ (r : Routine Q ρ α) (w : World), ∀ c ∈ original_calls (Routine.exec cb r w).events, P c := by
  intro r
  induction r with
  | ret a =>
    intro w c hc
    simp [Routine.exec, Exec.ret, original_calls] at hc
  | ask q k ih =>
    intro w c hc
    simp only [Routine.exec, Exec.seq] at hc
    have hq := hcb q w
    rcases hcq : cb q w with ⟨res, w1, es⟩
    rw [hcq] at hc hq
    cases res with
    | error x => exact hq c hc
    | ok a =>
      simp only [original_calls, List.filterMap_append, List.mem_append] at hc
      rcases hc with hc | hc
      · exact hq c hc
      · exact ih a w1 c hc

/-- The outcome of the secondary lookup, by cases on the registry. -/
theorem lookup_eq (env : Env) (EDX : Ptr) (appID dlc_id : AppId_t) (w : World) :
    IClientApps_BGetDLCDataByIndex_lookup env EDX appID dlc_id w =
      match w.interface_name_to_address_map.lookup "IClientAppManager" with
      | none =>
        ⟨.ok false,
          { w with interface_name_to_address_map :=
              w.interface_name_to_address_map ++ [("IClientAppManager", 0)] }, []⟩
      | some a =>
        if a ≠ 0 then
          ⟨.ok true,
            { w with memory :=
                (env.IClientAppManager_IsAppDlcInstalled a EDX appID dlc_id w.memory).2 },
            [.IsAppDlcInstalled a EDX appID dlc_id]⟩
        else ⟨.ok false, w, []⟩ := by
  unfold IClientApps_BGetDLCDataByIndex_lookup map_index
  simp only [bind_eq_seq, pure_eq_ret]
  cases hl : w.interface_name_to_address_map.lookup "IClientAppManager" with
  | none => simp [Exec.seq, world, update, Exec.ret, hl]
  | some a =>
    by_cases ha : a = 0
    · simp [Exec.seq, world, update, Exec.ret, hl, ha]
    · simp [Exec.seq, world, update, Exec.ret, emit, hl, ha]

/-- C2 (the code at the failing input): the sibling interface is registered
and reports the DLC not installed, yet the lookup callback returns true. -/
theorem lookup_ignores_sibling_answer :
    registeredWorld.interface_name_to_address_map.lookup "IClientAppManager" = some 99 ∧
    (gameEnv.IClientAppManager_IsAppDlcInstalled 99 0 480 481 registeredWorld.memory).1 = false ∧
    sibling_calls (IClientApps_BGetDLCDataByIndex_lookup gameEnv 0 480 481 registeredWorld).events
      = [.IsAppDlcInstalled 99 0 480 481] ∧
    (IClientApps_BGetDLCDataByIndex_lookup gameEnv 0 480 481 registeredWorld).result
      = .ok true := by
  refine ⟨by decide, rfl, by decide, rfl⟩

/-- C3: when no address is registered for `IClientAppManager` the secondary
lookup degrades: for every app id and DLC id the callback returns false, raises
nothing, does not invoke `IClientAppManager_IsAppDlcInstalled`, and leaves host
memory, and with it what the genuine call reported, untouched. -/
theorem lookup_degrades_when_unregistered (env : Env) (EDX : Ptr) (appID dlc_id : AppId_t)
    (w : World)
    (hreg : (w.interface_name_to_address_map.lookup "IClientAppManager").getD 0 = 0) :
    (IClientApps_BGetDLCDataByIndex_lookup env EDX appID dlc_id w).result = .ok false ∧
    (IClientApps_BGetDLCDataByIndex_lookup env EDX appID dlc_id w).events = [] ∧
    sibling_calls (IClientApps_BGetDLCDataByIndex_lookup env EDX appID dlc_id w).events = [] ∧
    (IClientApps_BGetDLCDataByIndex_lookup env EDX appID dlc_id w).world.memory = w.memory := by
  rw [lookup_eq]
  cases hl : w.interface_name_to_address_map.lookup "IClientAppManager" with
  | none => exact ⟨rfl, rfl, rfl, rfl⟩
  | some a =>
    rw [hl] at hreg
    simp only [Option.getD_some] at hreg
    subst hreg
    exact ⟨rfl, rfl, rfl, rfl⟩

/-- C3 at a process in which no interface has been registered yet. -/
theorem lookup_degrades_when_unregistered_witness :
    ((World.fresh []).interface_name_to_address_map.lookup "IClientAppManager").getD 0 = 0 ∧
    (IClientApps_BGetDLCDataByIndex_lookup gameEnv 0 480 481 (World.fresh [])).result
      = .ok false ∧
    (IClientApps_BGetDLCDataByIndex_lookup gameEnv 0 480 481 (World.fresh [])).events = [] ∧
    sibling_calls (IClientApps_BGetDLCDataByIndex_lookup gameEnv 0 480 481
      (World.fresh [])).events = [] ∧
    (IClientApps_BGetDLCDataByIndex_lookup gameEnv 0 480 481 (World.fresh [])).world.memory
      = (World.fresh []).memory :=
  ⟨by decide, lookup_degrades_when_unregistered gameEnv 0 480 481 (World.fresh []) (by decide)⟩

/-- C4: when the shared count routine answers from synthetic state for the
app, `IClientApps_GetDLCCount` returns the routine's answer unchanged, calls the
original zero times and changes nothing. -/
theorem synthetic_count_skips_original (env : Env) (ECX EDX : Ptr) (appId : AppId_t)
    (w : World) (n : Int)
    (hsyn : env.steam_apps_GetDLCCount "IClientApps_GetDLCCount" appId = .ret n) :
    (IClientApps_GetDLCCount env ECX EDX appId w).result = .ok n ∧
    (original_calls (IClientApps_GetDLCCount env ECX EDX appId w).events).length = 0 ∧
    (IClientApps_GetDLCCount env ECX EDX appId w).world = w := by
  unfold IClientApps_GetDLCCount
  rw [hsyn]
  exact ⟨rfl, rfl, rfl⟩

/-- C4 at a configuration that grants every app: the fabricated count is 3. -/
theorem synthetic_count_skips_original_witness :
    grantedEnv.steam_apps_GetDLCCount "IClientApps_GetDLCCount" 480 = .ret 3 ∧
    (IClientApps_GetDLCCount grantedEnv 7 0 480 (World.fresh [])).result = .ok 3 ∧
    (original_calls (IClientApps_GetDLCCount grantedEnv 7 0 480 (World.fresh [])).events).length
      = 0 ∧
    (IClientApps_GetDLCCount grantedEnv 7 0 480 (World.fresh [])).world = World.fresh [] :=
  ⟨rfl, synthetic_count_skips_original grantedEnv 7 0 480 (World.fresh []) 3 rfl⟩

/-- C5: forwarding preserves the argument list exactly.  Each invocation of a
forwarding callback calls the original exactly once, with the values the handler
received, in the same order, and returns the original's return value unchanged;
and every original call a handler makes, whatever the shared routine does,
carries exactly the handler's own argument list. -/
theorem forwarding_preserves_arguments (env : Env) (ECX EDX : Ptr) (appId : AppId_t)
    (iDLC : Int) (pDlcID pbAvailable pchName : Ptr) (cchNameBufferSize : Int) (w : World) :
    (original_calls (IClientApps_GetDLCCount_forward env ECX EDX appId w).events =
        [("IClientApps_GetDLCCount", [.ptr ECX, .ptr EDX, .app appId])] ∧
      (IClientApps_GetDLCCount_forward env ECX EDX appId w).result =
        .ok (env.IClientApps_GetDLCCount_o ECX EDX appId w.memory).1) ∧
    (original_calls (IClientApps_BGetDLCDataByIndex_forward env ECX EDX appId iDLC pDlcID
        pbAvailable pchName cchNameBufferSize w).events =
        [("IClientApps_BGetDLCDataByIndex", [.ptr ECX, .ptr EDX, .app appId, .int iDLC,
          .ptr pDlcID, .ptr pbAvailable, .ptr pchName, .int cchNameBufferSize])] ∧
      (IClientApps_BGetDLCDataByIndex_forward env ECX EDX appId iDLC pDlcID pbAvailable pchName
        cchNameBufferSize w).result =
        .ok (env.IClientApps_BGetDLCDataByIndex_o ECX EDX appId iDLC pDlcID pbAvailable pchName
          cchNameBufferSize w.memory).1) ∧
    (∀ c ∈ original_calls (IClientApps_GetDLCCount env ECX EDX appId w).events,
      c = ("IClientApps_GetDLCCount", [.ptr ECX, .ptr EDX, .app appId])) ∧
    (∀ c ∈ original_calls (IClientApps_BGetDLCDataByIndex env ECX EDX appId iDLC pDlcID
        pbAvailable pchName cchNameBufferSize w).events,
      c = ("IClientApps_BGetDLCDataByIndex", [.ptr ECX, .ptr EDX, .app appId, .int iDLC,
          .ptr pDlcID, .ptr pbAvailable, .ptr pchName, .int cchNameBufferSize])) := by
  refine ⟨⟨rfl, rfl⟩, ⟨rfl, rfl⟩, ?_, ?_⟩
  · unfold IClientApps_GetDLCCount
    apply exec_original_calls
    intro q w1 c hc
    have hev : original_calls (IClientApps_GetDLCCount_forward env ECX EDX appId w1).events =
        [("IClientApps_GetDLCCount", [.ptr ECX, .ptr EDX, .app appId])] := rfl
    rw [hev] at hc
    exact List.mem_singleton.mp hc
  · unfold IClientApps_BGetDLCDataByIndex
    apply exec_original_calls
    intro q w1 c hc
    cases q with
    | none =>
      have hev : original_calls (IClientApps_BGetDLCDataByIndex_forward env ECX EDX appId iDLC
          pDlcID pbAvailable pchName cchNameBufferSize w1).events =
          [("IClientApps_BGetDLCDataByIndex", [.ptr ECX, .ptr EDX, .app appId, .int iDLC,
            .ptr pDlcID, .ptr pbAvailable, .ptr pchName, .int cchNameBufferSize])] := rfl
      simp only at hc
      rw [hev] at hc
      exact List.mem_singleton.mp hc
    | some dlc_id =>
      exfalso
      simp only at hc
      rw [lookup_eq] at hc
      cases hl : w1.interface_name_to_address_map.lookup "IClientAppManager" with
      | none =>
        rw [hl] at hc
        simp [original_calls] at hc
      | some a =>
        rw [hl] at hc
        by_cases ha : a = 0
        · simp [original_calls, ha] at hc
        · simp [original_calls, ha] at hc

/-- C5 at a game whose count routine forwards: the one original call made
carries the handler's arguments, and its value, 2, is what the callback returns. -/
theorem forwarding_preserves_arguments_witness :
    original_calls (IClientApps_GetDLCCount gameEnv 7 0 480 (World.fresh [])).events =
      [("IClientApps_GetDLCCount", [.ptr 7, .ptr 0, .app 480])] ∧
    (IClientApps_GetDLCCount_forward gameEnv 7 0 480 (World.fresh [])).result = .ok 2 ∧
    ((original_calls (IClientApps_GetDLCCount_forward gameEnv 7 0 480 (World.fresh [])).events =
        [("IClientApps_GetDLCCount", [.ptr 7, .ptr 0, .app 480])] ∧
      (IClientApps_GetDLCCount_forward gameEnv 7 0 480 (World.fresh [])).result =
        .ok (gameEnv.IClientApps_GetDLCCount_o 7 0 480 (World.fresh []).memory).1) ∧
    (original_calls (IClientApps_BGetDLCDataByIndex_forward gameEnv 7 0 480 1 16 20 24 64
        (World.fresh [])).events =
        [("IClientApps_BGetDLCDataByIndex", [.ptr 7, .ptr 0, .app 480, .int 1,
          .ptr 16, .ptr 20, .ptr 24, .int 64])] ∧
      (IClientApps_BGetDLCDataByIndex_forward gameEnv 7 0 480 1 16 20 24 64
        (World.fresh [])).result =
        .ok (gameEnv.IClientApps_BGetDLCDataByIndex_o 7 0 480 1 16 20 24 64
          (World.fresh []).memory).1) ∧
    (∀ c ∈ original_calls (IClientApps_GetDLCCount gameEnv 7 0 480 (World.fresh [])).events,
      c = ("IClientApps_GetDLCCount", [.ptr 7, .ptr 0, .app 480])) ∧
    (∀ c ∈ original_calls (IClientApps_BGetDLCDataByIndex gameEnv 7 0 480 1 16 20 24 64
        (World.fresh [])).events,
      c = ("IClientApps_BGetDLCDataByIndex", [.ptr 7, .ptr 0, .app 480, .int 1,
          .ptr 16, .ptr 20, .ptr 24, .int 64]))) :=
  ⟨by decide, rfl, forwarding_preserves_arguments gameEnv 7 0 480 1 16 20 24 64 (World.fresh [])⟩

/-- C9 (the code at the failing input): with no entry for `IClientAppManager`,
the lookup leaves the registry with an entry for that name, holding null. -/
theorem lookup_inserts_registry_entry :
    (World.fresh []).interface_name_to_address_map = [] ∧
    (IClientApps_BGetDLCDataByIndex_lookup gameEnv 0 480 481
      (World.fresh [])).world.interface_name_to_address_map = [("IClientAppManager", 0)] ∧
    (IClientApps_BGetDLCDataByIndex_lookup gameEnv 0 480 481
      (World.fresh [])).world.interface_name_to_address_map
        ≠ (World.fresh []).interface_name_to_address_map := by
  refine ⟨rfl, rfl, by decide⟩

set_option maxHeartbeats 1600000 in
/-- The state and trace a returning `try` block of `init` leaves behind. -/
theorem init_body_effects (env : Env) (h : HMODULE) (w : World) :
    attach_effects env h w (init_body env h w).result (init_body env h w).world
      (init_body env h w).events := by
  rw [← holds_iff (attach_effects _ _ _ _ _ _),
    ← wp_iff (init_body env h) w
      (fun o => Holds (attach_effects env h w o.result o.world o.events))]
  unfold init_body init_proxy_mode init_hook_mode is_valve_steam init_listener
    init_hook_mode_callback DETOUR_STEAMCLIENT shutdown_listener LOG_INFO LOG_DEBUG
  repeat' first
    | simp only [bind_bind, wp_bind_ret, wp_bind_emit, wp_bind_update, wp_bind_world,
        wp_bind_call, wp_bind_ite, wp_ret, wp_pure, wp_emit, wp_call, wp_update, wp_world, wp_ite]
    | intro _
    | apply And.intro
    | split
  all_goals rw [holds_iff]
  all_goals simp_all [attach_effects, reports_hook_mode, proxy_library, exe_named_steam,
      manifest_identifies_steam, modes_run, mode_of_event, detours]

/-- The outcome of `smoke_api::shutdown`, by cases on the handle and on
`free_library`. -/
theorem shutdown_eq (env : Env) (w : World) :
    smoke_api.shutdown env w =
      if w.steamapi_module ≠ 0 then
        match env.free_library w.steamapi_module with
        | .ok _ => ⟨.ok (), w, [.free_library w.steamapi_module, .log_info "💀 Shutdown complete"]⟩
        | .error x =>
          ⟨.ok (), w, [.free_library w.steamapi_module, .log_error ("Shutdown error: " ++ x)]⟩
      else ⟨.ok (), w, [.log_info "💀 Shutdown complete"]⟩ := by
  unfold smoke_api.shutdown try_catch LOG_INFO LOG_ERROR
  simp only [bind_eq_seq]
  by_cases hz : w.steamapi_module = 0
  · simp [Exec.seq, world, Exec.ret, emit, hz]
  · cases hf : env.free_library w.steamapi_module with
    | ok u => simp [Exec.seq, world, call, emit, hz, hf]
    | error x => simp [Exec.seq, world, call, emit, hz, hf]

/-- C7: detach releases exactly what attach loaded.  `smoke_api::shutdown`
calls `free_library` on `globals::steamapi_module` iff that handle is non-null;
it changes no state, so no hook is uninstalled; an exception raised while
freeing is caught and logged, not propagated.  After an attach from a fresh
process that returned, the handle is the library `init_proxy_mode` loaded in
Proxy Mode and null in either Hook Mode. -/
theorem shutdown_releases_what_attach_loaded (env : Env) (h : HMODULE) (w w0 : World)
    (hfresh : w0.steamapi_module = 0)
    (hok : (init_body env h w0).result = .ok ()) :
    freed (smoke_api.shutdown env w).events = (if w.steamapi_module ≠ 0 then [w.steamapi_module] else []) ∧
    (smoke_api.shutdown env w).world = w ∧
    (smoke_api.shutdown env w).result = .ok () ∧
    (∀ what, w.steamapi_module ≠ 0 → env.free_library w.steamapi_module = .error what →
      (smoke_api.shutdown env w).events =
        [.free_library w.steamapi_module, .log_error ("Shutdown error: " ++ what)]) ∧
    (reports_hook_mode env h = false →
      (smoke_api.init env h w0).world.steamapi_module = proxy_library env ∧
      freed (smoke_api.shutdown env (smoke_api.init env h w0).world).events =
        (if proxy_library env ≠ 0 then [proxy_library env] else [])) ∧
    (reports_hook_mode env h = true →
      (smoke_api.init env h w0).world.steamapi_module = 0 ∧
      freed (smoke_api.shutdown env (smoke_api.init env h w0).world).events = []) := by
  have hshut : ∀ w1 : World, freed (smoke_api.shutdown env w1).events =
      (if w1.steamapi_module ≠ 0 then [w1.steamapi_module] else []) := by
    intro w1
    rw [shutdown_eq]
    by_cases hz : w1.steamapi_module = 0
    · simp [hz, freed]
    · cases hf : env.free_library w1.steamapi_module <;> simp [hz, freed]
  have heff := init_body_effects env h w0
  rw [hok] at heff
  simp only [attach_effects] at heff
  have hworld : (smoke_api.init env h w0).world = (init_body env h w0).world := by
    rw [init_eq, hok]
  refine ⟨hshut w, ?_, ?_, ?_, ?_, ?_⟩
  · rw [shutdown_eq]
    by_cases hz : w.steamapi_module = 0
    · simp [hz]
    · cases hf : env.free_library w.steamapi_module <;> simp [hz]
  · rw [shutdown_eq]
    by_cases hz : w.steamapi_module = 0
    · simp [hz]
    · cases hf : env.free_library w.steamapi_module <;> simp [hz]
  · intro what hz hf
    rw [shutdown_eq]
    simp [hz, hf]
  · intro hmode
    have hmod : (smoke_api.init env h w0).world.steamapi_module = proxy_library env := by
      rw [hworld, heff.1]
      simp [hmode]
    refine ⟨hmod, ?_⟩
    rw [hshut, hmod]
  · intro hmode
    have hmod : (smoke_api.init env h w0).world.steamapi_module = 0 := by
      rw [hworld, heff.1]
      simp [hmode, hfresh]
    refine ⟨hmod, ?_⟩
    rw [hshut, hmod]
    simp

/-- C7 at a process in Proxy Mode whose genuine library cannot be released:
the handle attach loaded is passed to `free_library`, the exception is logged. -/
theorem shutdown_releases_what_attach_loaded_witness :
    (World.fresh []).steamapi_module = 0 ∧
    (init_body stuckLibraryEnv 1 (World.fresh [])).result = .ok () ∧
    (smoke_api.shutdown stuckLibraryEnv (smoke_api.init stuckLibraryEnv 1 (World.fresh [])).world).events =
      [.free_library 7340032, .log_error "Shutdown error: busy"] ∧
    (freed (smoke_api.shutdown stuckLibraryEnv (smoke_api.init stuckLibraryEnv 1 (World.fresh [])).world).events =
      (if (smoke_api.init stuckLibraryEnv 1 (World.fresh [])).world.steamapi_module ≠ 0
        then [(smoke_api.init stuckLibraryEnv 1 (World.fresh [])).world.steamapi_module] else []) ∧
    (smoke_api.shutdown stuckLibraryEnv (smoke_api.init stuckLibraryEnv 1 (World.fresh [])).world).world =
      (smoke_api.init stuckLibraryEnv 1 (World.fresh [])).world ∧
    (smoke_api.shutdown stuckLibraryEnv (smoke_api.init stuckLibraryEnv 1 (World.fresh [])).world).result = .ok () ∧
    (∀ what, (smoke_api.init stuckLibraryEnv 1 (World.fresh [])).world.steamapi_module ≠ 0 →
      stuckLibraryEnv.free_library (smoke_api.init stuckLibraryEnv 1 (World.fresh [])).world.steamapi_module
        = .error what →
      (smoke_api.shutdown stuckLibraryEnv (smoke_api.init stuckLibraryEnv 1 (World.fresh [])).world).events =
        [.free_library (smoke_api.init stuckLibraryEnv 1 (World.fresh [])).world.steamapi_module,
          .log_error ("Shutdown error: " ++ what)]) ∧
    (reports_hook_mode stuckLibraryEnv 1 = false →
      (smoke_api.init stuckLibraryEnv 1 (World.fresh [])).world.steamapi_module
        = proxy_library stuckLibraryEnv ∧
      freed (smoke_api.shutdown stuckLibraryEnv (smoke_api.init stuckLibraryEnv 1 (World.fresh [])).world).events =
        (if proxy_library stuckLibraryEnv ≠ 0 then [proxy_library stuckLibraryEnv] else [])) ∧
    (reports_hook_mode stuckLibraryEnv 1 = true →
      (smoke_api.init stuckLibraryEnv 1 (World.fresh [])).world.steamapi_module = 0 ∧
      freed (smoke_api.shutdown stuckLibraryEnv (smoke_api.init stuckLibraryEnv 1 (World.fresh [])).world).events
        = [])) :=
  ⟨rfl, rfl, by decide,
    shutdown_releases_what_attach_loaded stuckLibraryEnv 1
      (smoke_api.init stuckLibraryEnv 1 (World.fresh [])).world (World.fresh []) rfl rfl⟩

end SmokeAPI
